import Mathlib

/-!
Verification development for the delayed-upload scheduler of the
red-clipping repository (`src/upload/upload_scheduler.py` and
`src/utils/state_manager.py`).

Modelling conventions (shallow embedding):

* Timestamps are integers (seconds since an arbitrary epoch).  The Python
  code stores times as ISO-8601 strings and converts with
  `datetime.isoformat` / `datetime.fromisoformat`; since ISO strings of a
  fixed format compare lexicographically exactly as the instants they
  denote compare chronologically, the round trip is modelled as the
  identity on `Int` and string comparison of stored times as `Int`
  comparison.  `datetime.now()` becomes an explicit `now : Int` parameter,
  `timedelta(minutes=m)` becomes `60 * m`, `timedelta(seconds=10)` becomes
  `10`, and `int(dt.timestamp())` is the `Int` itself.
* Python `dict`s holding JSON data are association lists of `String × JVal`
  in insertion order; `d.get(k, default)` is `jGetD`, `d[k]` (which raises
  `KeyError` on a missing key) is `jIndex` returning `Except String`.
* Python's `list.sort(key=...)` is a stable sort by the key; any two stable
  sorts agree, so it is modelled with `List.insertionSort` (stable) over
  the non-strict key order.
-/

/-- JSON values as stored in the state files (`upload_history.json`,
`upload_queue.json`).  Strings, integers (modelling timestamps, see the
header comment), arrays and objects suffice for everything this program
reads or writes. -/
inductive JVal where
  | s (v : String)
  | n (v : Int)
  | arr (l : List JVal)
  | obj (l : List (String × JVal))

namespace JVal

/-- `d.get(k)` on a Python dict: `none` when the key is missing.  (On a
non-dict value Python would raise `AttributeError`; no claim exercises
that path, so it is mapped to `none`.) -/
def jLookup : JVal → String → Option JVal
  | .obj l, k => l.lookup k
  | _, _ => none

/-- `d.get(k, default)` on a Python dict. -/
def jGetD (v : JVal) (k : String) (d : JVal) : JVal :=
  match jLookup v k with
  | some x => x
  | none => d

/-- `d[k]` on a Python value: `KeyError` on a dict missing the key,
`TypeError` when the value is not a dict at all. -/
def jIndex : JVal → String → Except String JVal
  | .obj l, k =>
    match l.lookup k with
    | some x => .ok x
    | none => .error ("KeyError: " ++ k)
  | _, k => .error ("TypeError: " ++ k)

/-- `d[k] = v` on a Python dict: overwrite in place when the key exists,
otherwise append (Python dicts preserve insertion order). -/
def setAssoc (k : String) (v : JVal) : List (String × JVal) → List (String × JVal)
  | [] => [(k, v)]
  | (k', v') :: l => if k' = k then (k, v) :: l else (k', v') :: setAssoc k v l

/-- `d[k] = v` lifted to `JVal` (identity on non-dicts, a path no claim
exercises). -/
def jSet (v : JVal) (k : String) (x : JVal) : JVal :=
  match v with
  | .obj l => .obj (setAssoc k x l)
  | other => other

/-- Elements of a JSON array (iterating a non-list would raise `TypeError`
in Python; no claim exercises that path). -/
def asArr : JVal → List JVal
  | .arr l => l
  | _ => []

/-- Numeric view of a value, used for sort keys over timestamps and
priorities (which this program always stores as numbers / ISO timestamps,
see the header comment). -/
def asInt : JVal → Int
  | .n i => i
  | _ => 0

/-- `v == some_string` as the Python `==` used in the history/queue
filters: true exactly when the value is present and is that string. -/
def isStr (v : Option JVal) (x : String) : Bool :=
  match v with
  | some (.s y) => y = x
  | _ => false

end JVal

open JVal

/-! ## StateManager, file level

`StateManager._load_json` and the operations that consume the raw parsed
file contents (`state_manager.py`).  A state file on disk is either
missing (`FileNotFoundError`), unparseable — which includes an empty file,
since `json.load` raises `JSONDecodeError` on it — or parsed JSON. -/

/-- Durable content of one state file as seen by `json.load`. -/
inductive FileState where
  | missing
  | unparseable
  | parsed (v : JVal)

/-- `StateManager._load_json`: returns the parsed value, or `{}` on
`JSONDecodeError` / `FileNotFoundError` (both are caught and logged). -/
def load_json : FileState → JVal
  | .missing => .obj []
  | .unparseable => .obj []
  | .parsed v => v

/-! Sort keys.  `get_queue` sorts with
`key=lambda x: (-x.get('priority', 0), x.get('scheduled_time', now_iso))`,
i.e. ascending lexicographic order on `(-priority, scheduled_time)`;
`get_history` sorts with `key=lambda x: x.get('upload_time', '')` and
`reverse=True`, i.e. descending on `upload_time` with a missing time
(defaulting to `''`, below every ISO string) sorting last. -/

/-- Non-strict lexicographic order on integer pairs, as `Bool`. -/
def lexLE (p q : Int × Int) : Bool :=
  decide (p.1 < q.1) || (decide (p.1 = q.1) && decide (p.2 ≤ q.2))

/-- The sort key of `StateManager.get_queue`:
`(-task.get('priority', 0), task.get('scheduled_time', now))`. -/
def queueKey (now : Int) (t : JVal) : Int × Int :=
  (-(asInt (jGetD t "priority" (.n 0))), asInt (jGetD t "scheduled_time" (.n now)))

/-- The order `get_queue` actually sorts by: ascending on `queueKey`,
i.e. priority descending first, then scheduled time ascending. -/
def codeQueueLE (now : Int) (a b : JVal) : Prop :=
  lexLE (queueKey now a) (queueKey now b) = true

instance (now : Int) : DecidableRel (codeQueueLE now) := fun a b =>
  inferInstanceAs (Decidable (_ = true))

/-- The order the specification describes for `listPending`: primarily
`dueTime` ascending, tie-broken by descending `priority`.  Written from
the spec's words, to be compared with `codeQueueLE`. -/
def specQueueLE (now : Int) (a b : JVal) : Prop :=
  lexLE (asInt (jGetD a "scheduled_time" (.n now)), -(asInt (jGetD a "priority" (.n 0))))
        (asInt (jGetD b "scheduled_time" (.n now)), -(asInt (jGetD b "priority" (.n 0)))) = true

instance (now : Int) : DecidableRel (specQueueLE now) := fun a b =>
  inferInstanceAs (Decidable (_ = true))

/-- Sort key of `get_history`: `upload_time`, with `''` (below every ISO
string, modelled as `none` below every `Int`) when missing or non-numeric. -/
def timeKey (r : JVal) : Option Int :=
  match jLookup r "upload_time" with
  | some (.n i) => some i
  | _ => none

/-- `a` may precede `b` in the `reverse=True` history sort: the key of `a`
is at least the key of `b` (missing keys smallest). -/
def histDescLE (a b : JVal) : Prop :=
  (match timeKey a, timeKey b with
   | _, none => true
   | none, some _ => false
   | some x, some y => decide (y ≤ x)) = true

instance : DecidableRel histDescLE := fun a b =>
  inferInstanceAs (Decidable (_ = true))

/-- The pre-sort stage of `StateManager.get_queue`: load the queue file,
take its `queue` list (default `[]`), filter by platform when given. -/
def queue_tasks_raw (fs : FileState) (platform : Option String) : List JVal :=
  let q := load_json fs
  let tasks := asArr (jGetD q "queue" (.arr []))
  match platform with
  | some p => tasks.filter (fun t => isStr (jLookup t "platform") p)
  | none => tasks

/-- `StateManager.get_queue`: the loaded, filtered tasks, stable-sorted by
`(-priority, scheduled_time)`. -/
def get_queue_file (fs : FileState) (platform : Option String) (now : Int) : List JVal :=
  List.insertionSort (codeQueueLE now) (queue_tasks_raw fs platform)

/-- `StateManager.get_history`: `uploads` list (default `[]`), optional
platform/status filters, stable sort by `upload_time` descending, optional
limit. -/
def get_history (uploads : List JVal) (platform status : Option String)
    (limit : Option Nat) : List JVal :=
  let u :=
    match platform with
    | some p => uploads.filter (fun r => isStr (jLookup r "platform") p)
    | none => uploads
  let u :=
    match status with
    | some st => u.filter (fun r => isStr (jLookup r "status") st)
    | none => u
  let u := List.insertionSort histDescLE u
  match limit with
  | some k => u.take k
  | none => u

/-- `get_history` over a raw history file (reads `uploads` with `.get`,
defaulting to `[]`). -/
def get_history_file (fs : FileState) (platform status : Option String)
    (limit : Option Nat) : List JVal :=
  get_history (asArr (jGetD (load_json fs) "uploads" (.arr []))) platform status limit

/-- `StateManager.remove_from_queue` at file level: indexes
`queue['queue']` (a `KeyError` when the loaded dict has no such key) and
filters out every task matching `(clip_path, platform)`. -/
def remove_from_queue_file (fs : FileState) (clip_path platform : String) :
    Except String JVal :=
  let q := load_json fs
  match jIndex q "queue" with
  | .error e => .error e
  | .ok v =>
    .ok (jSet q "queue" (.arr ((asArr v).filter
      (fun t => !(isStr (jLookup t "clip_path") clip_path
                  && isStr (jLookup t "platform") platform)))))

/-- One Python `task.update(updates)` step, merging `updates` into `t`. -/
def jUpdate (t : JVal) (updates : List (String × JVal)) : JVal :=
  updates.foldl (fun acc kv => jSet acc kv.1 kv.2) t

/-- Update the first matching task of a queue list (the Python loop
`break`s after the first match). -/
def updateFirstTask (clip_path platform : String) (updates : List (String × JVal)) :
    List JVal → List JVal
  | [] => []
  | t :: ts =>
    if isStr (jLookup t "clip_path") clip_path && isStr (jLookup t "platform") platform then
      jUpdate t updates :: ts
    else
      t :: updateFirstTask clip_path platform updates ts

/-- `StateManager.update_queue_task` at file level: iterates
`queue['queue']` (a `KeyError` when the loaded dict has no such key). -/
def update_queue_task_file (fs : FileState) (clip_path platform : String)
    (updates : List (String × JVal)) : Except String JVal :=
  let q := load_json fs
  match jIndex q "queue" with
  | .error e => .error e
  | .ok v =>
    .ok (jSet q "queue" (.arr (updateFirstTask clip_path platform updates (asArr v))))

/-- `StateManager.add_to_history` at file level: sets `upload_time` when
absent, then appends to `history['uploads']` (a `KeyError` when the loaded
dict has no such key). -/
def add_to_history_file (fs : FileState) (record : JVal) (now : Int) :
    Except String JVal :=
  let h := load_json fs
  let record :=
    if (jLookup record "upload_time").isSome then record
    else jSet record "upload_time" (.n now)
  match jIndex h "uploads" with
  | .error e => .error e
  | .ok v => .ok (jSet h "uploads" (.arr (asArr v ++ [record])))

/-! ## StateManager, parsed level

The scheduler (`upload_scheduler.py`) drives the StateManager through
mutating calls whose net effect, on a well-formed state file (the shape
`_init_state_files` creates), is a pure transformation of the parsed
`queue` list of tasks and `uploads` list of records.  The scheduler-level
model below works over that parsed state; the file-level definitions above
capture the raw file handling.  (`last_updated`, which the StateManager
also rewrites on every mutation, carries no scheduler-visible information
and is not modelled.) -/

/-- An upload task dict as the scheduler builds and stores it.  Optional
fields model keys that may be absent from the dict; the metadata payload
is opaque to the scheduler and modelled as a string map. -/
structure UploadTask where
  clip_path : String
  platform : String
  video_path : String := ""
  scheduled_time : Option Int := none
  retry_count : Option Nat := none
  priority : Option Int := none
  created_time : Option Int := none
  metadata : List (String × String) := []
deriving DecidableEq, Repr

/-- The defaulting `StateManager.add_to_queue` performs on the task dict
it is handed (in place, before appending): set `created_time` to now and
`priority` to 0 when absent. -/
def applyQueueDefaults (now : Int) (t : UploadTask) : UploadTask :=
  { t with
    created_time := some (t.created_time.getD now)
    priority := some (t.priority.getD 0) }

/-- `StateManager.add_to_queue` on the parsed queue list: default the
task's `created_time`/`priority`, then append. -/
def add_to_queue (now : Int) (t : UploadTask) (q : List UploadTask) : List UploadTask :=
  q ++ [applyQueueDefaults now t]

/-- `StateManager.remove_from_queue` on the parsed queue list: drop every
task matching `(clip_path, platform)`. -/
def remove_from_queue (clip_path platform : String) (q : List UploadTask) :
    List UploadTask :=
  q.filter (fun t => !(decide (t.clip_path = clip_path) && decide (t.platform = platform)))

/-- `StateManager.update_queue_task` on the parsed queue list: the Python
loop applies `task.update(updates)` to the first match and `break`s.  The
scheduler always passes the whole (mutated) task dict as `updates`, whose
keys are a superset of the stored dict's keys, so the update replaces the
stored task with `updates`. -/
def update_queue_task (clip_path platform : String) (updates : UploadTask) :
    List UploadTask → List UploadTask
  | [] => []
  | t :: ts =>
    if t.clip_path = clip_path ∧ t.platform = platform then updates :: ts
    else t :: update_queue_task clip_path platform updates ts

/-- `StateManager.add_to_history` on the parsed `uploads` list: set
`upload_time` when absent, then append. -/
def add_to_history (now : Int) (record : JVal) (uploads : List JVal) : List JVal :=
  let record :=
    if (jLookup record "upload_time").isSome then record
    else jSet record "upload_time" (.n now)
  uploads ++ [record]

/-- `StateManager.get_last_upload_time`: the `upload_time` of the most
recent successful upload for the platform, via
`get_history(platform, status='success', limit=1)`. -/
def get_last_upload_time (uploads : List JVal) (platform : String) : Option JVal :=
  match get_history uploads (some platform) (some "success") (some 1) with
  | [] => none
  | r :: _ => jLookup r "upload_time"

/-! ## UploadScheduler -/

/-- The scheduling configuration read in `UploadScheduler.__init__`
(`.get` defaults: 60, true, 5, 3, 15). -/
structure SchedulerConfig where
  min_delay_minutes : Int := 60
  stagger_uploads : Bool := true
  stagger_delay_minutes : Int := 5
  max_retry_attempts : Nat := 3
  retry_delay_minutes : Int := 15
deriving DecidableEq, Repr

/-- One entry of `UploadScheduler.scheduled_jobs`: the task dict and the
scheduled run time (the APScheduler job handle itself carries no further
scheduler-visible state). -/
structure SJEntry where
  task : UploadTask
  time : Int
deriving DecidableEq, Repr

/-- Combined scheduler-visible state: the parsed queue file (`queue`), the
parsed history file (`history`), APScheduler's job store (`apJobs`: job id
and run date of every job whose trigger has not yet fired — APScheduler
removes a `DateTrigger` job from its store when it fires), and the
scheduler's own `scheduled_jobs` dict. -/
structure SchedState where
  queue : List UploadTask := []
  history : List JVal := []
  apJobs : List (String × Int) := []
  scheduled_jobs : List (String × SJEntry) := []

/-- `clip_path.replace('/', '_')`: a single-character Python
`str.replace`, i.e. a character map. -/
def sanitize (s : String) : String :=
  ⟨s.data.map (fun c => if c = '/' then '_' else c)⟩

/-- The job id built in `schedule_upload`:
`f"{platform}_{clip_path.replace('/', '_')}_{int(scheduled_time.timestamp())}"`. -/
def make_job_id (platform clip_path : String) (ts : Int) : String :=
  platform ++ "_" ++ sanitize clip_path ++ "_" ++ toString ts

/-- Insert under a key, dropping any existing binding with that key
(`add_job(..., replace_existing=True)` and, for `scheduled_jobs`, Python
dict assignment; binding order is never observed by a claim). -/
def insertAssoc {α : Type} (k : String) (v : α) (l : List (String × α)) :
    List (String × α) :=
  l.filter (fun x => !(decide (x.1 = k))) ++ [(k, v)]

/-- `UploadScheduler._get_next_upload_time`: if the platform has a last
successful upload time, propose `last + min_delay`; use it only when it is
still in the future, otherwise (also when there is no history) schedule
for now + 10 seconds. -/
def get_next_upload_time (cfg : SchedulerConfig) (now : Int) (platform : String)
    (history : List JVal) : Int :=
  match get_last_upload_time history platform with
  | some (.n last) =>
    let min_next := last + 60 * cfg.min_delay_minutes
    if min_next > now then min_next else now + 10
  | _ => now + 10

/-- The scheduled-time computation at the top of
`UploadScheduler.schedule_upload` (lines 86–100): the task's own
`scheduled_time` when present, else `_get_next_upload_time`; then clamped
to `now + 10` when not in the future. -/
def scheduled_time_calc (cfg : SchedulerConfig) (now : Int) (t : UploadTask)
    (history : List JVal) : Int :=
  let sched :=
    match t.scheduled_time with
    | some ts => ts
    | none => get_next_upload_time cfg now t.platform history
  if sched ≤ now then now + 10 else sched

/-- `UploadScheduler.schedule_upload`: compute the scheduled time
(`scheduled_time_calc`), store it on the task, build the job id, append
the task to the queue file, add the APScheduler job
(`replace_existing=True`) and record it in `scheduled_jobs`.  Returns
`(job_id, run_date, new state)`; the Python function returns only
`job_id`, but the run date it hands to `add_job` is returned too so that
theorems can name it. -/
def schedule_upload (cfg : SchedulerConfig) (now : Int) (t : UploadTask)
    (st : SchedState) : String × Int × SchedState :=
  let sched := scheduled_time_calc cfg now t st.history
  let t := { t with scheduled_time := some sched }
  let job_id := make_job_id t.platform t.clip_path sched
  let stored := applyQueueDefaults now t
  (job_id, sched,
    { st with
      queue := add_to_queue now t st.queue
      apJobs := insertAssoc job_id sched st.apJobs
      scheduled_jobs := insertAssoc job_id ⟨stored, sched⟩ st.scheduled_jobs })

/-- The history record dict built in the success branch of
`UploadScheduler._execute_upload`. -/
def successRecord (t : UploadTask) (now : Int) : JVal :=
  .obj [("video_path", .s t.video_path), ("clip_path", .s t.clip_path),
        ("platform", .s t.platform), ("status", .s "success"),
        ("upload_time", .n now),
        ("metadata", .obj (t.metadata.map (fun kv => (kv.1, .s kv.2))))]

/-- The history record dict built in the terminal branch of
`UploadScheduler._handle_failed_upload`. -/
def failedRecord (t : UploadTask) (now : Int) : JVal :=
  .obj [("video_path", .s t.video_path), ("clip_path", .s t.clip_path),
        ("platform", .s t.platform), ("status", .s "failed"),
        ("upload_time", .n now),
        ("metadata", .obj (t.metadata.map (fun kv => (kv.1, .s kv.2)))),
        ("error", .s "Max retries exceeded")]

/-- `UploadScheduler._handle_failed_upload`: when
`retry_count < max_retry_attempts`, increment the count, set the task's
time to `now + retry_delay`, update it in the queue file and re-invoke
`schedule_upload`; otherwise append a failed history record and remove the
task from the queue file. -/
def handle_failed_upload (cfg : SchedulerConfig) (now : Int) (t : UploadTask)
    (st : SchedState) : SchedState :=
  let rc := t.retry_count.getD 0
  if rc < cfg.max_retry_attempts then
    let t' := { t with
      retry_count := some (rc + 1)
      scheduled_time := some (now + 60 * cfg.retry_delay_minutes) }
    let st := { st with queue := update_queue_task t.clip_path t.platform t' st.queue }
    (schedule_upload cfg now t' st).2.2
  else
    { st with
      history := add_to_history now (failedRecord t now) st.history
      queue := remove_from_queue t.clip_path t.platform st.queue }

/-- `UploadScheduler._execute_upload` after the publisher call returned
(`success = true`) or failed/raised (`success = false`): on success append
a success record to history and remove the task from the queue file; on
failure defer to `_handle_failed_upload` (a raised exception takes the
same path). -/
def execute_upload (cfg : SchedulerConfig) (now : Int) (t : UploadTask)
    (success : Bool) (st : SchedState) : SchedState :=
  if success then
    { st with
      history := add_to_history now (successRecord t now) st.history
      queue := remove_from_queue t.clip_path t.platform st.queue }
  else
    handle_failed_upload cfg now t st

/-- The loop body of `UploadScheduler.schedule_batch_upload` over the
enumerated task list: skip tasks whose platform has no upload function;
when staggering is on and `i > 0`, propose `batch_start + i * stagger`,
floored by `_get_next_upload_time`; then `schedule_upload`.  `funcs` is
the set of platforms with an upload function. -/
def batch_go (cfg : SchedulerConfig) (now : Int) (funcs : List String) :
    Nat → List UploadTask → SchedState → List String × SchedState
  | _, [], st => ([], st)
  | i, t :: ts, st =>
    if t.platform ∈ funcs then
      let t :=
        if cfg.stagger_uploads ∧ i > 0 then
          let sched := now + 60 * cfg.stagger_delay_minutes * (i : Int)
          let next_available := get_next_upload_time cfg now t.platform st.history
          let sched := if sched < next_available then next_available else sched
          { t with scheduled_time := some sched }
        else t
      let r := schedule_upload cfg now t st
      let rest := batch_go cfg now funcs (i + 1) ts r.2.2
      (r.1 :: rest.1, rest.2)
    else
      batch_go cfg now funcs (i + 1) ts st

/-- `UploadScheduler.schedule_batch_upload`: `current_time` is read once
at entry (`now`); returns the job ids and the final state. -/
def schedule_batch_upload (cfg : SchedulerConfig) (now : Int)
    (tasks : List UploadTask) (funcs : List String) (st : SchedState) :
    List String × SchedState :=
  batch_go cfg now funcs 0 tasks st

/-- `UploadScheduler.cancel_upload`: when the id is in `scheduled_jobs`,
try `scheduler.remove_job` — it succeeds exactly when the trigger has not
yet fired (the id is still in APScheduler's store), in which case the task
is removed from the queue file, the `scheduled_jobs` entry deleted and
`True` returned; when `remove_job` raises (job already fired: dispatched
or finished), the exception is caught before any mutation and `False` is
returned.  Unknown ids return `False`. -/
def cancel_upload (job_id : String) (st : SchedState) : Bool × SchedState :=
  match st.scheduled_jobs.lookup job_id with
  | some e =>
    if (st.apJobs.lookup job_id).isSome then
      (true,
        { st with
          apJobs := st.apJobs.filter (fun x => !(decide (x.1 = job_id)))
          queue := remove_from_queue e.task.clip_path e.task.platform st.queue
          scheduled_jobs := st.scheduled_jobs.filter (fun x => !(decide (x.1 = job_id))) })
    else (false, st)
  | none => (false, st)

/-! ## Concrete instances used by witnesses and counterexamples -/

/-- The default configuration of `UploadScheduler.__init__` (empty config
dict): 60-minute platform delay, staggering on, 5-minute stagger, 3
retries, 15-minute retry delay. -/
def cfg0 : SchedulerConfig := {}

/-- Empty scheduler state (fresh start: empty queue and history files,
nothing scheduled). -/
def st0 : SchedState := {}

/-- A history with one successful upload for platform `p1` at time 0. -/
def hist1 : List JVal :=
  [.obj [("video_path", .s "v"), ("clip_path", .s "c"), ("platform", .s "p1"),
         ("status", .s "success"), ("upload_time", .n 0), ("metadata", .obj [])]]

/-- Queue-file task: priority 0, scheduled time 100. -/
def taskA : JVal :=
  .obj [("clip_path", .s "a"), ("platform", .s "p1"),
        ("priority", .n 0), ("scheduled_time", .n 100)]

/-- Queue-file task: priority 1, scheduled time 200. -/
def taskB : JVal :=
  .obj [("clip_path", .s "b"), ("platform", .s "p1"),
        ("priority", .n 1), ("scheduled_time", .n 200)]

/-- A parsed queue file holding `taskA` then `taskB`. -/
def fsQueue : FileState := .parsed (.obj [("queue", .arr [taskA, taskB])])

/-- A submit call with an empty artifact reference and a platform unknown
to every uploader. -/
def tBad : UploadTask := { clip_path := "", platform := "nosuch" }

/-- A task submitted for `p1` with an explicit schedule at time 1000. -/
def t2c : UploadTask := { clip_path := "a/b", platform := "p1", scheduled_time := some 1000 }

/-- The task dict as stored at submission (defaults applied by
`add_to_queue`; this same dict is later handed to `_execute_upload`). -/
def t2s : UploadTask := applyQueueDefaults 500 t2c

/-- Scheduler state after submitting `t2c` at time 500. -/
def st1 : SchedState := (schedule_upload cfg0 500 t2c st0).2.2

/-- A task on its third attempt (two failures recorded): `retry_count = 2`. -/
def t7 : UploadTask :=
  { clip_path := "c.mp4", platform := "p1", video_path := "v.mp4", retry_count := some 2 }

/-- A task whose retries are exhausted under the default configuration:
`retry_count = 3 = max_retry_attempts`. -/
def t7f : UploadTask :=
  { clip_path := "c.mp4", platform := "p1", video_path := "v.mp4", retry_count := some 3 }

/-- A never-attempted task (`retry_count` absent, read as 0). -/
def tW : UploadTask := { clip_path := "w.mp4", platform := "p1" }

/-- Batch tasks for the three-job stagger scenario. -/
def tk1 : UploadTask := { clip_path := "k1", platform := "p1" }

/-- Second batch task. -/
def tk2 : UploadTask := { clip_path := "k2", platform := "p1" }

/-- Third batch task. -/
def tk3 : UploadTask := { clip_path := "k3", platform := "p1" }

/-- The task behind the cancellation scenarios. -/
def tC6 : UploadTask :=
  { clip_path := "c6.mp4", platform := "p1", scheduled_time := some 50,
    created_time := some 0, priority := some 0 }

/-- State with job `j1` still pending: tracked in `scheduled_jobs`, its
trigger not yet fired (still in APScheduler's store), its task queued. -/
def stPending : SchedState :=
  { queue := [tC6], history := [], apJobs := [("j1", 50)],
    scheduled_jobs := [("j1", ⟨tC6, 50⟩)] }

/-- State after job `j1` fired (dispatched or finished): APScheduler
dropped it from its store; `scheduled_jobs` still tracks it, since
`cancel_upload` is the only code that ever deletes from that dict. -/
def stDone : SchedState :=
  { queue := [tC6], history := [], apJobs := [],
    scheduled_jobs := [("j1", ⟨tC6, 50⟩)] }

/-- The due times the specification's `staggerBatch` formula assigns to a
batch of `n` same-platform jobs starting at index `i`: job `i` gets
`max(earliestEligibleTime, batchStart + i * staggerDelay)`.  Written from
the spec's words, to be compared with what `schedule_batch_upload`
produces. -/
def staggerDues (now d next : Int) : Nat → Nat → List (Option Int)
  | _, 0 => []
  | i, Nat.succ m =>
    some (max next (now + 60 * d * (i : Int))) :: staggerDues now d next (i + 1) m

/-! ## Helper lemmas -/

/-- `lexLE` is total. -/
theorem lexLE_total (p q : Int × Int) : lexLE p q = true ∨ lexLE q p = true := by
  simp only [lexLE, Bool.or_eq_true, Bool.and_eq_true, decide_eq_true_eq]
  omega

/-- `lexLE` is transitive. -/
theorem lexLE_trans {p q r : Int × Int} (h1 : lexLE p q = true) (h2 : lexLE q r = true) :
    lexLE p r = true := by
  simp only [lexLE, Bool.or_eq_true, Bool.and_eq_true, decide_eq_true_eq] at *
  omega

instance (now : Int) : IsTotal JVal (codeQueueLE now) :=
  ⟨fun _ _ => lexLE_total _ _⟩

instance (now : Int) : IsTrans JVal (codeQueueLE now) :=
  ⟨fun _ _ _ => lexLE_trans⟩

/-- Tasks surviving `remove_from_queue` never match the removed
`(clip_path, platform)` pair. -/
theorem remove_from_queue_spec (clip p : String) (q : List UploadTask) :
    ∀ u ∈ remove_from_queue clip p q, ¬(u.clip_path = clip ∧ u.platform = p) := by
  intro u hu
  have h := (List.mem_filter.mp hu).2
  simp only [Bool.not_eq_true', Bool.and_eq_false_iff, decide_eq_false_iff_not] at h
  tauto

/-- `_get_next_upload_time` always proposes a strictly future time: either
`last + min_delay` guarded by the explicit future check, or `now + 10`. -/
theorem get_next_gt_now (cfg : SchedulerConfig) (now : Int) (p : String)
    (h : List JVal) : now < get_next_upload_time cfg now p h := by
  unfold get_next_upload_time
  rcases get_last_upload_time h p with _ | v
  · show now < now + 10
    omega
  · rcases v with _ | i | _ | _
    · show now < now + 10
      omega
    · dsimp only
      split <;> omega
    · show now < now + 10
      omega
    · show now < now + 10
      omega

/-! ## Claim theorems -/

/-- C8: loading the pending queue from an empty, missing, or unparseable
state file yields the empty list and no error: both exception paths are
caught in `_load_json`, and `get_queue` reads the missing `queue` key with
a defaulting `.get`.  An empty file raises `JSONDecodeError`, i.e. is the
`unparseable` case. -/
theorem c8_load_empty_state (platform : Option String) (now : Int) :
    get_queue_file .missing platform now = [] ∧
    get_queue_file .unparseable platform now = [] := by
  cases platform <;> exact ⟨rfl, rfl⟩

/-- C10: on a state file that failed to parse (`_load_json` returned `{}`),
the mutating operations `remove_from_queue`, `update_queue_task` and
`add_to_history` raise `KeyError` on the missing `queue`/`uploads` key,
while the read operations `get_queue`/`get_history` treat the same state
as empty. -/
theorem c10_mutators_keyerror :
    remove_from_queue_file .unparseable "c" "p" = .error "KeyError: queue" ∧
    update_queue_task_file .unparseable "c" "p" [] = .error "KeyError: queue" ∧
    add_to_history_file .unparseable (.obj [("status", .s "success")]) 0 =
      .error "KeyError: uploads" ∧
    get_queue_file .unparseable none 0 = [] ∧
    get_history_file .unparseable none none none = [] :=
  ⟨rfl, rfl, rfl, rfl, rfl⟩

/-- C7 (counterexample): the claim says every terminal HistoryRecord
records the job's final attempt count and a Failed record carries the last
error detail.  In the very scenario the spec describes (two failures, then
success on the third attempt, so `retry_count = 2` at execution), the
success record written to history has no `attempt` key at all; and a
terminal failed record carries the fixed string `Max retries exceeded`
rather than any last-attempt error detail. -/
theorem c7_history_record_counterexample :
    (execute_upload cfg0 5000 t7 true st0).history = [successRecord t7 5000] ∧
    jLookup (successRecord t7 5000) "attempt" = none ∧
    (handle_failed_upload cfg0 6000 t7f st0).history = [failedRecord t7f 6000] ∧
    jLookup (failedRecord t7f 6000) "attempt" = none ∧
    jLookup (failedRecord t7f 6000) "error" = some (.s "Max retries exceeded") :=
  ⟨rfl, rfl, rfl, rfl, rfl⟩

/-- C7 (amended): terminal HistoryRecords carry no attempt count at all
(neither success nor failed records have an `attempt` key), and a terminal
Failed record's error detail is always the fixed string
`Max retries exceeded`, whatever the last attempt's actual error was (the
exception detail is dropped at the `_execute_upload` boundary). -/
theorem c7_history_record_fields (t : UploadTask) (now : Int) :
    jLookup (successRecord t now) "attempt" = none ∧
    jLookup (failedRecord t now) "attempt" = none ∧
    jLookup (successRecord t now) "status" = some (.s "success") ∧
    jLookup (failedRecord t now) "status" = some (.s "failed") ∧
    jLookup (failedRecord t now) "error" = some (.s "Max retries exceeded") :=
  ⟨rfl, rfl, rfl, rfl, rfl⟩

/-- C5 (counterexample): the claim says `get_queue` returns tasks sorted
primarily by due time ascending with descending priority only a tie-break.
With a priority-0 task due at 100 and a priority-1 task due at 200,
`get_queue` returns the later-due priority-1 task first, so the result is
not sorted in the claimed order. -/
theorem c5_queue_order_counterexample :
    ¬ List.Sorted (specQueueLE 0) (get_queue_file fsQueue none 0) := by
  intro hs
  have h : get_queue_file fsQueue none 0 = [taskB, taskA] := rfl
  rw [h] at hs
  exact absurd (List.rel_of_sorted_cons hs taskA (List.mem_singleton_self _)) (by decide)

/-- C5 (amended): `get_queue` returns the queue (filtered by platform when
requested) sorted primarily by priority descending, with scheduled time
ascending only as tie-break among equal priorities — the opposite key
order from the claim. -/
theorem c5_queue_sorted_by_priority (fs : FileState) (platform : Option String)
    (now : Int) :
    List.Sorted (codeQueueLE now) (get_queue_file fs platform now) ∧
    (get_queue_file fs platform now).Perm (queue_tasks_raw fs platform) :=
  ⟨List.sorted_insertionSort _ _, List.perm_insertionSort _ _⟩

/-- C9 (counterexample): the claim says a submit with an unknown platform
or empty artifact reference is rejected synchronously with a validation
error and nothing is persisted.  `schedule_upload` performs no validation:
with an empty `clip_path` and a platform no uploader knows, it still
returns a job id and persists the task to the queue file. -/
theorem c9_no_validation_counterexample :
    (schedule_upload cfg0 0 tBad st0).1 = "nosuch__10" ∧
    (schedule_upload cfg0 0 tBad st0).2.2.queue =
      [{ tBad with scheduled_time := some 10, created_time := some 0,
                   priority := some 0 }] ∧
    (schedule_upload cfg0 0 tBad st0).2.2.queue ≠ st0.queue :=
  ⟨rfl, rfl, by decide⟩

/-- C9 (amended): `schedule_upload` validates nothing: for every input —
unknown platforms and empty artifact references included — it persists the
task to the pending queue (leaving history untouched) and returns a job
id; valid inputs get a job id as claimed, but invalid ones are accepted
identically rather than rejected. -/
theorem c9_submit_accepts_anything (cfg : SchedulerConfig) (now : Int)
    (t : UploadTask) (st : SchedState) :
    (schedule_upload cfg now t st).2.2.history = st.history ∧
    ∃ stored : UploadTask,
      (schedule_upload cfg now t st).2.2.queue = st.queue ++ [stored] ∧
      stored.clip_path = t.clip_path ∧ stored.platform = t.platform :=
  ⟨rfl, _, rfl, rfl, rfl⟩

/-- C4 (amended): `_get_next_upload_time` returns `lastSuccess + minDelay`
only when that floor still lies in the future; when the floor has already
passed — and likewise when the platform has no recorded success — it
returns `now` plus the fixed 10-second grace. -/
theorem c4_rate_limit_floor (cfg : SchedulerConfig) (now : Int) (p : String)
    (h : List JVal) :
    (∀ last : Int, get_last_upload_time h p = some (.n last) →
      (now < last + 60 * cfg.min_delay_minutes →
        get_next_upload_time cfg now p h = last + 60 * cfg.min_delay_minutes) ∧
      (last + 60 * cfg.min_delay_minutes ≤ now →
        get_next_upload_time cfg now p h = now + 10)) ∧
    (get_last_upload_time h p = none → get_next_upload_time cfg now p h = now + 10) := by
  constructor
  · intro last hl
    constructor <;> intro hn <;> simp only [get_next_upload_time, hl] <;>
      [rw [if_pos (by omega)]; rw [if_neg (by omega)]]
  · intro hl
    simp only [get_next_upload_time, hl]

/-- C4 (witness): with one success for `p1` at time 0 and `now = 100`, the
floor `0 + 60 min` is still ahead and is returned; with no history the
result is `now + 10`. -/
theorem c4_rate_limit_floor_witness :
    get_next_upload_time cfg0 100 "p1" hist1 = 0 + 60 * 60 ∧
    get_next_upload_time cfg0 100 "p1" [] = 100 + 10 :=
  ⟨((c4_rate_limit_floor cfg0 100 "p1" hist1).1 0 rfl).1 (by decide),
   (c4_rate_limit_floor cfg0 100 "p1" []).2 rfl⟩

/-- C4 (counterexample): the claim says the computation returns
`lastSuccess + minDelay` whenever a last success time is recorded.  With a
success recorded at time 0 and `now = 10000` (the floor 3600 long passed),
the code returns `10010 = now + 10`, not `3600`. -/
theorem c4_rate_limit_counterexample :
    get_last_upload_time hist1 "p1" = some (.n 0) ∧
    get_next_upload_time cfg0 10000 "p1" hist1 = 10010 ∧
    (10010 : Int) ≠ 0 + 60 * 60 :=
  ⟨rfl, rfl, by decide⟩

/-- C2 (amended): the retry is scheduled under a job id recomputed from
the platform, (sanitized) clip path and the new due time's integer
timestamp — `_handle_failed_upload` re-enters `schedule_upload`, which
rebuilds the id from the mutated task — so the id is not a stable identity
carried across retries: it changes whenever the timestamp part differs. -/
theorem c2_retry_job_id_recomputed (cfg : SchedulerConfig) (now : Int)
    (t : UploadTask) (st : SchedState)
    (hrc : t.retry_count.getD 0 < cfg.max_retry_attempts)
    (hrd : 0 < cfg.retry_delay_minutes) :
    (make_job_id t.platform t.clip_path (now + 60 * cfg.retry_delay_minutes),
      now + 60 * cfg.retry_delay_minutes) ∈
      (handle_failed_upload cfg now t st).apJobs := by
  have hcl : ¬(now + 60 * cfg.retry_delay_minutes ≤ now) := by omega
  simp only [handle_failed_upload, if_pos hrc, schedule_upload, scheduled_time_calc,
    if_neg hcl, insertAssoc]
  exact List.mem_append_right _ (List.mem_singleton_self _)

/-- C2 (counterexample): the claim says the job id assigned at first
scheduling never changes across retries.  Submitting `a/b` for `p1`
scheduled at 1000 yields job id `p1_a_b_1000`; after a failed attempt at
time 2000 the retry is scheduled under job id `p1_a_b_2900` (due time
2000 + 15 min), a different identity. -/
theorem c2_job_id_changes_counterexample :
    (schedule_upload cfg0 500 t2c st0).1 = "p1_a_b_1000" ∧
    (handle_failed_upload cfg0 2000 t2s st1).apJobs =
      [("p1_a_b_1000", 1000), ("p1_a_b_2900", 2900)] ∧
    "p1_a_b_2900" ≠ "p1_a_b_1000" :=
  ⟨rfl, rfl, by decide⟩

/-- C2 (witness): the amended statement at the concrete retry of
`c2_job_id_changes_counterexample`. -/
theorem c2_retry_job_id_recomputed_witness :
    (make_job_id t2s.platform t2s.clip_path (2000 + 60 * cfg0.retry_delay_minutes),
      2000 + 60 * cfg0.retry_delay_minutes) ∈
      (handle_failed_upload cfg0 2000 t2s st1).apJobs :=
  c2_retry_job_id_recomputed cfg0 2000 t2s st1 (by decide) (by decide)

/-- C6: cancelling a job whose trigger has not yet fired (still Pending:
its id is still in APScheduler's store) returns true, removes its task
from the pending queue and writes no HistoryRecord; cancelling a job that
already fired (Dispatched or terminal — `remove_job` raises before any
mutation) or an unknown id returns false and leaves queue and history
untouched. -/
theorem c6_cancel_behavior (st : SchedState) (job_id : String) :
    (∀ e : SJEntry, st.scheduled_jobs.lookup job_id = some e →
      ((st.apJobs.lookup job_id).isSome →
        (cancel_upload job_id st).1 = true ∧
        (cancel_upload job_id st).2.history = st.history ∧
        (∀ u ∈ (cancel_upload job_id st).2.queue,
          ¬(u.clip_path = e.task.clip_path ∧ u.platform = e.task.platform))) ∧
      ((st.apJobs.lookup job_id) = none →
        (cancel_upload job_id st).1 = false ∧ (cancel_upload job_id st).2 = st)) ∧
    (st.scheduled_jobs.lookup job_id = none →
      (cancel_upload job_id st).1 = false ∧ (cancel_upload job_id st).2 = st) := by
  constructor
  · intro e he
    refine ⟨fun hap => ?_, fun hap => ?_⟩
    · have h : cancel_upload job_id st = (true,
        { st with
          apJobs := st.apJobs.filter (fun x => !(decide (x.1 = job_id)))
          queue := remove_from_queue e.task.clip_path e.task.platform st.queue
          scheduled_jobs := st.scheduled_jobs.filter (fun x => !(decide (x.1 = job_id))) }) := by
        simp [cancel_upload, he, hap]
      rw [h]
      exact ⟨rfl, rfl, remove_from_queue_spec _ _ _⟩
    · have h : cancel_upload job_id st = (false, st) := by
        simp [cancel_upload, he, hap]
      rw [h]
      exact ⟨rfl, rfl⟩
  · intro he
    have h : cancel_upload job_id st = (false, st) := by
      simp [cancel_upload, he]
    rw [h]
    exact ⟨rfl, rfl⟩

/-- C6 (witness): the two scenarios at concrete states — cancel of the
still-pending `j1` succeeds without touching history; cancel after `j1`
fired returns false and changes nothing. -/
theorem c6_cancel_behavior_witness :
    (cancel_upload "j1" stPending).1 = true ∧
    (cancel_upload "j1" stPending).2.history = stPending.history ∧
    (cancel_upload "j1" stDone).1 = false ∧ (cancel_upload "j1" stDone).2 = stDone := by
  have h1 := ((c6_cancel_behavior stPending "j1").1 ⟨tC6, 50⟩ rfl).1 rfl
  have h2 := ((c6_cancel_behavior stDone "j1").1 ⟨tC6, 50⟩ rfl).2 rfl
  exact ⟨h1.1, h1.2.1, h2.1, h2.2⟩

/-- C1: `_handle_failed_upload` decides purely on
`(retry_count, max_retry_attempts)`.  Below the cap it reschedules the
same task with `retry_count` incremented and due time `now + retry_delay`
(updated in the queue, appended again by the nested `schedule_upload`,
and given to APScheduler at that run date), leaving history untouched; at
or above the cap it appends a terminal failed record to history, removes
the task from the pending queue, and schedules nothing new. -/
theorem c1_retry_decision (cfg : SchedulerConfig) (now : Int) (t : UploadTask)
    (st : SchedState) (hrd : 0 < cfg.retry_delay_minutes) :
    (t.retry_count.getD 0 < cfg.max_retry_attempts →
      (handle_failed_upload cfg now t st).history = st.history ∧
      (handle_failed_upload cfg now t st).queue =
        update_queue_task t.clip_path t.platform
          { t with retry_count := some (t.retry_count.getD 0 + 1),
                   scheduled_time := some (now + 60 * cfg.retry_delay_minutes) } st.queue ++
        [applyQueueDefaults now
          { t with retry_count := some (t.retry_count.getD 0 + 1),
                   scheduled_time := some (now + 60 * cfg.retry_delay_minutes) }] ∧
      (make_job_id t.platform t.clip_path (now + 60 * cfg.retry_delay_minutes),
        now + 60 * cfg.retry_delay_minutes) ∈ (handle_failed_upload cfg now t st).apJobs) ∧
    (cfg.max_retry_attempts ≤ t.retry_count.getD 0 →
      (handle_failed_upload cfg now t st).history = st.history ++ [failedRecord t now] ∧
      jLookup (failedRecord t now) "status" = some (.s "failed") ∧
      (∀ u ∈ (handle_failed_upload cfg now t st).queue,
        ¬(u.clip_path = t.clip_path ∧ u.platform = t.platform)) ∧
      (handle_failed_upload cfg now t st).apJobs = st.apJobs) := by
  constructor
  · intro hrc
    have hcl : ¬(now + 60 * cfg.retry_delay_minutes ≤ now) := by omega
    have h : handle_failed_upload cfg now t st = { st with
        queue := update_queue_task t.clip_path t.platform
            { t with retry_count := some (t.retry_count.getD 0 + 1),
                     scheduled_time := some (now + 60 * cfg.retry_delay_minutes) } st.queue ++
          [applyQueueDefaults now
            { t with retry_count := some (t.retry_count.getD 0 + 1),
                     scheduled_time := some (now + 60 * cfg.retry_delay_minutes) }],
        apJobs := st.apJobs.filter (fun x =>
            !(decide (x.1 = make_job_id t.platform t.clip_path
              (now + 60 * cfg.retry_delay_minutes)))) ++
          [(make_job_id t.platform t.clip_path (now + 60 * cfg.retry_delay_minutes),
            now + 60 * cfg.retry_delay_minutes)],
        scheduled_jobs := st.scheduled_jobs.filter (fun x =>
            !(decide (x.1 = make_job_id t.platform t.clip_path
              (now + 60 * cfg.retry_delay_minutes)))) ++
          [(make_job_id t.platform t.clip_path (now + 60 * cfg.retry_delay_minutes),
            ⟨applyQueueDefaults now
              { t with retry_count := some (t.retry_count.getD 0 + 1),
                       scheduled_time := some (now + 60 * cfg.retry_delay_minutes) },
             now + 60 * cfg.retry_delay_minutes⟩)] } := by
      simp only [handle_failed_upload, if_pos hrc, schedule_upload, scheduled_time_calc,
        if_neg hcl, add_to_queue, insertAssoc]
    rw [h]
    exact ⟨rfl, rfl, List.mem_append_right _ (List.mem_singleton_self _)⟩
  · intro hmax
    have hcl : ¬(t.retry_count.getD 0 < cfg.max_retry_attempts) := by omega
    have h : handle_failed_upload cfg now t st = { st with
        history := add_to_history now (failedRecord t now) st.history,
        queue := remove_from_queue t.clip_path t.platform st.queue } := by
      simp only [handle_failed_upload, if_neg hcl]
    rw [h]
    exact ⟨rfl, rfl, remove_from_queue_spec _ _ _, rfl⟩

/-- C1 (witness): a first failure of `tW` (`retry_count` absent, below the
cap of 3) at time 1000 is rescheduled at 1000 + 15 min; a failure of `t7f`
(`retry_count = 3`, at the cap) at time 6000 is terminal. -/
theorem c1_retry_decision_witness :
    ((handle_failed_upload cfg0 1000 tW st0).history = st0.history ∧
     (handle_failed_upload cfg0 1000 tW st0).queue =
       update_queue_task tW.clip_path tW.platform
         { tW with retry_count := some (tW.retry_count.getD 0 + 1),
                   scheduled_time := some (1000 + 60 * cfg0.retry_delay_minutes) } st0.queue ++
       [applyQueueDefaults 1000
         { tW with retry_count := some (tW.retry_count.getD 0 + 1),
                   scheduled_time := some (1000 + 60 * cfg0.retry_delay_minutes) }] ∧
     (make_job_id tW.platform tW.clip_path (1000 + 60 * cfg0.retry_delay_minutes),
       1000 + 60 * cfg0.retry_delay_minutes) ∈
       (handle_failed_upload cfg0 1000 tW st0).apJobs) ∧
    ((handle_failed_upload cfg0 6000 t7f st0).history =
       st0.history ++ [failedRecord t7f 6000] ∧
     jLookup (failedRecord t7f 6000) "status" = some (.s "failed") ∧
     (handle_failed_upload cfg0 6000 t7f st0).apJobs = st0.apJobs) := by
  have h1 := (c1_retry_decision cfg0 1000 tW st0 (by decide)).1 (by decide)
  have h2 := (c1_retry_decision cfg0 6000 t7f st0 (by decide)).2 (by decide)
  exact ⟨h1, h2.1, h2.2.1, h2.2.2.2⟩

theorem scheduled_time_calc_some (cfg : SchedulerConfig) (now : Int) (t : UploadTask)
    (history : List JVal) (ts : Int) (h : t.scheduled_time = some ts) (hts : now < ts) :
    scheduled_time_calc cfg now t history = ts := by
  unfold scheduled_time_calc
  rw [h]
  show (if ts ≤ now then now + 10 else ts) = ts
  exact if_neg (by omega)

theorem scheduled_time_calc_none (cfg : SchedulerConfig) (now : Int) (t : UploadTask)
    (history : List JVal) (h : t.scheduled_time = none) :
    scheduled_time_calc cfg now t history =
      get_next_upload_time cfg now t.platform history := by
  have hgt := get_next_gt_now cfg now t.platform history
  unfold scheduled_time_calc
  rw [h]
  show (if get_next_upload_time cfg now t.platform history ≤ now then now + 10
        else get_next_upload_time cfg now t.platform history) = _
  exact if_neg (by omega)

theorem schedule_upload_history (cfg : SchedulerConfig) (now : Int) (t : UploadTask)
    (st : SchedState) : (schedule_upload cfg now t st).2.2.history = st.history := rfl

theorem schedule_upload_queue_map (cfg : SchedulerConfig) (now : Int) (t : UploadTask)
    (st : SchedState) :
    (schedule_upload cfg now t st).2.2.queue.map (fun u => u.scheduled_time) =
      st.queue.map (fun u => u.scheduled_time) ++
        [some (scheduled_time_calc cfg now t st.history)] := by
  show ((st.queue ++ [applyQueueDefaults now
      { t with scheduled_time := some (scheduled_time_calc cfg now t st.history) }]).map
      (fun u => u.scheduled_time)) = _
  rw [List.map_append]
  rfl

theorem staggerDues_eq_range_map (now d next : Int) :
    ∀ (m i : Nat), staggerDues now d next i m =
      (List.range m).map (fun j =>
        some (max next (now + 60 * d * ((i + j : Nat) : Int)))) := by
  intro m
  induction m with
  | zero => intro i; simp [staggerDues]
  | succ m ihm =>
    intro i
    rw [staggerDues, ihm (i + 1), List.range_succ_eq_map]
    simp only [List.map_cons, List.map_map, Nat.add_zero]
    congr 1
    apply List.map_congr_left
    intro j _
    simp only [Function.comp_apply, Nat.add_zero, Nat.succ_add, Nat.add_succ]

theorem batch_go_dues (cfg : SchedulerConfig) (now : Int) (funcs : List String)
    (p : String) (hp : p ∈ funcs) (hstag : cfg.stagger_uploads = true) :
    ∀ (ts : List UploadTask) (i : Nat) (st : SchedState),
      (∀ t ∈ ts, t.platform = p ∧ t.scheduled_time = none) →
      (batch_go cfg now funcs i ts st).2.history = st.history ∧
      (batch_go cfg now funcs i ts st).2.queue.map (fun u => u.scheduled_time) =
        st.queue.map (fun u => u.scheduled_time) ++
        staggerDues now cfg.stagger_delay_minutes
          (get_next_upload_time cfg now p st.history) i ts.length := by
  intro ts
  induction ts with
  | nil =>
    intro i st _
    exact ⟨rfl, by simp [staggerDues, batch_go]⟩
  | cons t rest ih =>
    intro i st hts
    obtain ⟨htp, htn⟩ := hts t (List.mem_cons_self _ _)
    have hrest := fun u hu => hts u (List.mem_cons_of_mem _ hu)
    have hpf : t.platform ∈ funcs := by rw [htp]; exact hp
    have hnext := get_next_gt_now cfg now p st.history
    cases i with
    | zero =>
      have hstep : batch_go cfg now funcs 0 (t :: rest) st =
          ((schedule_upload cfg now t st).1 ::
            (batch_go cfg now funcs 1 rest (schedule_upload cfg now t st).2.2).1,
           (batch_go cfg now funcs 1 rest (schedule_upload cfg now t st).2.2).2) := by
        simp [batch_go, if_pos hpf]
      obtain ⟨ih1, ih2⟩ := ih 1 (schedule_upload cfg now t st).2.2 hrest
      rw [hstep]
      refine ⟨?_, ?_⟩
      · rw [ih1, schedule_upload_history]
      · rw [ih2, schedule_upload_queue_map, schedule_upload_history,
          scheduled_time_calc_none cfg now t st.history htn, htp,
          List.append_assoc, List.singleton_append, List.length_cons, staggerDues]
        have hh : max (get_next_upload_time cfg now p st.history)
            (now + 60 * cfg.stagger_delay_minutes * ((0 : Nat) : Int)) =
            get_next_upload_time cfg now p st.history := by
          have h0 : now + 60 * cfg.stagger_delay_minutes * ((0 : Nat) : Int) = now := by
            simp
          rw [h0]
          exact max_eq_left (le_of_lt hnext)
        rw [hh]
    | succ k =>
      set s0 := now + 60 * cfg.stagger_delay_minutes * ((k + 1 : Nat) : Int) with hs0
      set nx := get_next_upload_time cfg now p st.history with hnx
      have hstep : batch_go cfg now funcs (k + 1) (t :: rest) st =
          ((schedule_upload cfg now
              { t with scheduled_time := some (if s0 < nx then nx else s0) } st).1 ::
            (batch_go cfg now funcs (k + 2) rest (schedule_upload cfg now
              { t with scheduled_time := some (if s0 < nx then nx else s0) } st).2.2).1,
           (batch_go cfg now funcs (k + 2) rest (schedule_upload cfg now
              { t with scheduled_time := some (if s0 < nx then nx else s0) } st).2.2).2) := by
        rw [hs0, hnx]
        simp [batch_go, hstag, htp, hp]
      obtain ⟨ih1, ih2⟩ := ih (k + 2) (schedule_upload cfg now
        { t with scheduled_time := some (if s0 < nx then nx else s0) } st).2.2 hrest
      rw [hstep]
      refine ⟨?_, ?_⟩
      · rw [ih1, schedule_upload_history]
      · have hs1lt : now < (if s0 < nx then nx else s0) := by
          split <;> omega
        have hmax : (if s0 < nx then nx else s0) = max nx s0 := by
          split
          · exact (max_eq_left (le_of_lt (by assumption))).symm
          · exact (max_eq_right (not_lt.mp (by assumption))).symm
        rw [ih2, schedule_upload_queue_map, schedule_upload_history,
          scheduled_time_calc_some cfg now _ st.history _ rfl hs1lt,
          List.append_assoc, List.singleton_append, List.length_cons, staggerDues,
          hmax, hs0]

/-- C3: for a batch of same-platform jobs submitted together (no preset
schedule, staggering enabled, an uploader known for the platform), job `i`
(0-indexed) is stored in the pending queue with due time
`max(earliestEligibleTime(platform), batchStart + i * staggerDelay)`,
where `earliestEligibleTime` is `_get_next_upload_time` evaluated against
the history at batch start. -/
theorem c3_batch_stagger (cfg : SchedulerConfig) (now : Int) (p : String)
    (tasks : List UploadTask) (funcs : List String) (st : SchedState)
    (hp : p ∈ funcs) (hstag : cfg.stagger_uploads = true)
    (htasks : ∀ t ∈ tasks, t.platform = p ∧ t.scheduled_time = none) :
    (schedule_batch_upload cfg now tasks funcs st).2.queue.map
        (fun u => u.scheduled_time) =
      st.queue.map (fun u => u.scheduled_time) ++
      (List.range tasks.length).map (fun (i : Nat) =>
        some (max (get_next_upload_time cfg now p st.history)
          (now + 60 * cfg.stagger_delay_minutes * (i : Int)))) := by
  have h := (batch_go_dues cfg now funcs p hp hstag tasks 0 st htasks).2
  rw [show schedule_batch_upload cfg now tasks funcs st =
      batch_go cfg now funcs 0 tasks st from rfl, h, staggerDues_eq_range_map]
  congr 1
  apply List.map_congr_left
  intro j _
  simp

/-- C3 (witness): three fresh jobs for `p1`, no history, defaults. -/
theorem c3_batch_stagger_witness :
    (schedule_batch_upload cfg0 0 [tk1, tk2, tk3] ["p1"] st0).2.queue.map
        (fun u => u.scheduled_time) = [some 10, some 300, some 600] := by
  rw [c3_batch_stagger cfg0 0 "p1" [tk1, tk2, tk3] ["p1"] st0 (by decide) rfl (by decide)]
  rfl
